import Mathlib

/-!
Verification of `delete_urls.py`, a one-shot batch tool that deletes
documents matching given source URLs from all collections of a Watson
Discovery project.

Shallow embedding conventions:
* Python strings are modelled as `List Char` where character-level
  processing matters (line splitting, stripping), and as Lean `String`
  for opaque identifiers (collection ids, document ids, messages).
* The remote service is modelled as an explicit state-threading record
  of operations (`Service`); the orchestrator is a fold over that
  service that also emits a trace of the remote calls it makes.
* Python exceptions are modelled with `Except`: an uncaught exception
  propagating out of the URL loop is an `Except.error`.
* `sys.exit(n)` and falling off the end of `main` are modelled as the
  program returning exit code `n` (resp. `0`).
-/

/-- A URL as read from the input file: a Python string, character list. -/
abbrev Url := List Char

/-- The ASCII whitespace characters stripped by Python `str.strip()`
(space, tab, newline, carriage return, vertical tab, form feed).
Unicode whitespace is not modelled. -/
def pyIsSpace (c : Char) : Bool :=
  c = ' ' || c = '\t' || c = '\n' || c = '\r' || c = '\x0b' || c = '\x0c'

/-- Python `str.strip()`: drop whitespace from both ends. -/
def pyStrip (l : List Char) : List Char :=
  ((l.dropWhile pyIsSpace).reverse.dropWhile pyIsSpace).reverse

/-- Python `str.splitlines()` worker: `acc` holds the current line,
reversed.  Recognises `\n`, `\r` and `\r\n` as terminators; a final
fragment without a terminator is still yielded, and a trailing
terminator yields no extra empty line. -/
def pySplitlinesAux : List Char → List Char → List (List Char)
  | [], acc => if acc.isEmpty then [] else [acc.reverse]
  | '\r' :: '\n' :: rest, acc => acc.reverse :: pySplitlinesAux rest []
  | '\r' :: rest, acc => acc.reverse :: pySplitlinesAux rest []
  | '\n' :: rest, acc => acc.reverse :: pySplitlinesAux rest []
  | c :: rest, acc => pySplitlinesAux rest (c :: acc)

/-- Python `str.splitlines()`. -/
def pySplitlines (l : List Char) : List (List Char) :=
  pySplitlinesAux l []

/-- The line filter of `load_urls`: keep a stripped line when it is
non-empty and does not start with `#` (source line 47:
`if stripped and not stripped.startswith("#")`). -/
def keepLine (stripped : List Char) : Bool :=
  !stripped.isEmpty && stripped.head? ≠ some '#'

/-- `load_urls` (source lines 37-50), parsing part: iterate over the
lines of the file content, strip each, and append the kept ones.  The
file-existence check of the source (lines 39-42) is modelled at the
program level (`program`), which receives the file content as an
`Option`. -/
def load_urls (content : List Char) : List Url :=
  (pySplitlines content).foldl
    (fun urls line =>
      let stripped := pyStrip line
      if keepLine stripped then urls ++ [stripped] else urls)
    []

/-- One query result of `discovery.query`, modelled by its
`document_id` field: `none` when the key is absent, `some s` when
present with value `s` (the empty string is falsy in Python, like an
absent key). -/
abbrev QueryDoc := Option String

/-- The id-extraction step of `find_documents_by_url` (source lines
94-97): `doc.get("document_id")` followed by the truthiness test
`if doc_id:`. -/
def docIdOf (doc : QueryDoc) : Option String :=
  match doc with
  | none => none
  | some s => if s = "" then none else some s

/-- The `while True` pagination loop of `find_documents_by_url`
(source lines 80-101), with explicit fuel for termination.  `q` maps a
requested offset to the `results` list the service returns (the page
size requested is always the literal 100 of the source).  Returns
`none` when the fuel runs out before a terminating page, otherwise
`some (doc_ids, offsets)` where `offsets` lists, in order, the offsets
of the query calls that were issued. -/
def findDocsLoop (q : Nat → List QueryDoc) : Nat → Nat → Option (List String × List Nat)
  | 0, _ => none
  | fuel + 1, offset =>
    let results := q offset
    if results.isEmpty then some ([], [offset])
    else
      let ids := results.filterMap docIdOf
      if results.length < 100 then some (ids, [offset])
      else
        match findDocsLoop q fuel (offset + 100) with
        | none => none
        | some (ids2, offs) => some (ids ++ ids2, offset :: offs)

/-- `find_documents_by_url` (source lines 68-103): start the pagination
loop at offset 0. -/
def find_documents_by_url (q : Nat → List QueryDoc) (fuel : Nat) :
    Option (List String × List Nat) :=
  findDocsLoop q fuel 0

/-! ### The orchestrator (`main`, source lines 117-183)

`main` consumes the service through two calls inside the URL loop:
`find_documents_by_url(discovery, project_id, collection_id, url)`,
which returns a list of document ids or raises, and
`discovery.delete_document(...)` (wrapped by `delete_document`), which
returns a response whose `status` field is inspected, or raises.  The
loop is embedded over an abstract `Service`: a state type `σ` and the
two operations, each returning its outcome and the successor state.
The behaviour of `find_documents_by_url` itself, over the raw `query`
calls, is verified separately above. -/
/-- Outcome of a raw `delete_document` service call: a response with a
`status` string, or a raised exception with a message. -/
inductive DeleteRaw where
  | resp (status : String)
  | raises (msg : String)
deriving DecidableEq, Repr

/-- The remote service as seen by `main`: `find s pid cid url` models a
`find_documents_by_url` call, `delete s pid cid did` a
`discovery.delete_document` call.  `σ` is the remote state (the
document store); a stateless adapter uses `σ := Unit`. -/
structure Service (σ : Type) where
  find : σ → String → String → Url → Except String (List String) × σ
  delete : σ → String → String → String → DeleteRaw × σ

/-- `delete_document` (source lines 106-114): perform the raw call and
compare the response status with `"deleted"`, propagating a raised
exception. -/
def delete_document (svc : Service σ) (s : σ) (pid cid did : String) :
    Except String Bool × σ :=
  match svc.delete s pid cid did with
  | (DeleteRaw.resp status, s2) => (Except.ok (status = "deleted"), s2)
  | (DeleteRaw.raises m, s2) => (Except.error m, s2)

deriving instance DecidableEq for Except

/-- One remote call made during a run, together with the response it
got.  The `url` argument of `deleteCall` is the URL being processed at
the time of the call (iteration context; the Python call itself takes
only project, collection and document ids). -/
inductive Event where
  | createClient
  | listCollections (pid : String)
  | findCall (pid cid : String) (url : Url) (res : Except String (List String))
  | deleteCall (url : Url) (pid cid did : String) (res : Except String Bool)
deriving DecidableEq, Repr

/-- The mutable counters of `main` (source lines 142-144): an error
record is `(url, doc_id, collection_name, message)` as appended on
source lines 165 and 168. -/
structure RunState where
  total_deleted : Nat
  total_not_found : Nat
  errors : List (Url × String × String × String)
deriving DecidableEq, Repr

/-- The initial counters (source lines 142-144). -/
def initState : RunState := ⟨0, 0, []⟩

/-- The inner document loop of `main` (source lines 157-168): for each
document id, attempt deletion; a success bumps `total_deleted`, an
unexpected status or a raised exception appends one error record, and
iteration always continues.  Returns the emitted events, the final
service state and the updated counters. -/
def docsLoop (svc : Service σ) (u : Url) (pid cid cname : String) :
    List String → σ → RunState → List Event × σ × RunState
  | [], s, st => ([], s, st)
  | did :: rest, s, st =>
    match delete_document svc s pid cid did with
    | (res, s2) =>
      let st2 :=
        match res with
        | Except.ok true => { st with total_deleted := st.total_deleted + 1 }
        | Except.ok false =>
            { st with errors := st.errors ++ [(u, did, cname, "unexpected status")] }
        | Except.error m =>
            { st with errors := st.errors ++ [(u, did, cname, m)] }
      match docsLoop svc u pid cid cname rest s2 st2 with
      | (tr, s3, st3) => (Event.deleteCall u pid cid did res :: tr, s3, st3)

/-- The middle collection loop of `main` (source lines 150-168): query
each collection for the URL; an empty result list skips to the next
collection (`continue`), a non-empty one sets `found_any` and runs the
document loop; a raised exception from the query is not caught and
aborts the whole run (`Except.error`). -/
def collectionsLoop (svc : Service σ) (u : Url) (pid : String) :
    List (String × String) → σ → Bool → RunState →
    List Event × Except String (σ × Bool × RunState)
  | [], s, found, st => ([], Except.ok (s, found, st))
  | (cid, cname) :: rest, s, found, st =>
    match svc.find s pid cid u with
    | (Except.error m, _) => ([Event.findCall pid cid u (Except.error m)], Except.error m)
    | (Except.ok doc_ids, s2) =>
      if doc_ids.isEmpty then
        match collectionsLoop svc u pid rest s2 found st with
        | (tr, out) => (Event.findCall pid cid u (Except.ok doc_ids) :: tr, out)
      else
        match docsLoop svc u pid cid cname doc_ids s2 st with
        | (tr1, s3, st2) =>
          match collectionsLoop svc u pid rest s3 true st2 with
          | (tr2, out) =>
            (Event.findCall pid cid u (Except.ok doc_ids) :: (tr1 ++ tr2), out)

/-- The outer URL loop of `main` (source lines 146-172): process each
URL against every collection; when no collection produced a match,
bump `total_not_found`.  An uncaught query exception propagates. -/
def urlsLoop (svc : Service σ) (pid : String) :
    List Url → List (String × String) → σ → RunState →
    List Event × Except String (σ × RunState)
  | [], _, s, st => ([], Except.ok (s, st))
  | u :: rest, cols, s, st =>
    match collectionsLoop svc u pid cols s false st with
    | (tr, Except.error m) => (tr, Except.error m)
    | (tr, Except.ok (s2, found, st2)) =>
      let st3 := if found then st2
        else { st2 with total_not_found := st2.total_not_found + 1 }
      match urlsLoop svc pid rest cols s2 st3 with
      | (tr2, out) => (tr ++ tr2, out)

/-! ### Configuration and the whole program (source lines 18-34, 117-183) -/
/-- The configuration record built by `load_config` (source lines
29-34). -/
structure Config where
  api_key : String
  url : String
  project_id : String
  version : String
deriving DecidableEq, Repr

/-- Python truthiness of `os.getenv(k)`: false when the variable is
unset (`None`) or set to the empty string. -/
def envTruthy (getenv : String → Option String) (k : String) : Bool :=
  match getenv k with
  | none => false
  | some s => s ≠ ""

/-- The required keys of `load_config` (source line 23). -/
def requiredKeys : List String :=
  ["DISCOVERY_API_KEY", "DISCOVERY_URL", "DISCOVERY_PROJECT_ID"]

/-- `load_config` (source lines 18-34) over an abstract environment
lookup: `none` models the `sys.exit(1)` taken when any required key is
missing or empty.  Reading `config.env` into the process environment
(`load_dotenv`) is absorbed into `getenv`. -/
def load_config (getenv : String → Option String) : Option Config :=
  let missing := requiredKeys.filter (fun k => !envTruthy getenv k)
  if missing.isEmpty then
    some { api_key := (getenv "DISCOVERY_API_KEY").getD ""
           url := (getenv "DISCOVERY_URL").getD ""
           project_id := (getenv "DISCOVERY_PROJECT_ID").getD ""
           version := (getenv "DISCOVERY_API_VERSION").getD "2023-03-31" }
  else none

/-- The inputs of one program run: the process environment, the URL
file path (`sys.argv[1]` or the default), the content of the URL file
(`none` when the file does not exist), the result of
`get_collections` (a raised exception aborts), and the remote service
with its initial state. -/
structure World (σ : Type) where
  getenv : String → Option String
  url_file : String
  file : Option (List Char)
  collections : Except String (List (String × String))
  svc : Service σ
  s0 : σ

/-- `main` plus its callees at the process level (source lines
117-186).  Returns the console lines printed up to the start of the
URL loop (the loop's progress lines and the final summary are not
modelled; no claim concerns them), the events of the remote calls
made, and either `Except.ok code` (the process exit status, from
`sys.exit` or from falling off the end of `main`) or `Except.error m`
(an uncaught exception aborted the run).  The stages in source order:
`load_config` (exit 1 on missing configuration), `load_urls` (exit 1
on a missing file), the empty-URL-list early exit 0, `create_client`,
`get_collections` (exit 1 on an empty collection list), the URL loop,
and the final implicit exit 0. -/
def program (w : World σ) : List String × List Event × Except String Nat :=
  match load_config w.getenv with
  | none =>
    (["ERROR: Missing required config in .env: " ++
        String.intercalate ", " (requiredKeys.filter (fun k => !envTruthy w.getenv k))],
     [], Except.ok 1)
  | some config =>
    match w.file with
    | none => (["ERROR: URL file not found: " ++ w.url_file], [], Except.ok 1)
    | some content =>
      let urls := load_urls content
      if urls.isEmpty then
        (["No URLs found in input file. Nothing to do."], [], Except.ok 0)
      else
        let out0 := ["Loaded " ++ toString urls.length ++ " URL(s) to delete."]
        match w.collections with
        | Except.error m =>
          (out0, [Event.createClient, Event.listCollections config.project_id],
           Except.error m)
        | Except.ok collections =>
          if collections.isEmpty then
            (out0 ++ ["ERROR: No collections found in the project."],
             [Event.createClient, Event.listCollections config.project_id], Except.ok 1)
          else
            let out1 := out0 ++
              ["Found " ++ toString collections.length ++ " collection(s):"] ++
              collections.map (fun c => "  - " ++ c.2 ++ " (" ++ c.1 ++ ")") ++ [""]
            match urlsLoop w.svc config.project_id urls collections w.s0 initState with
            | (tr, Except.error m) =>
              (out1, Event.createClient :: Event.listCollections config.project_id :: tr,
               Except.error m)
            | (tr, Except.ok _) =>
              (out1, Event.createClient :: Event.listCollections config.project_id :: tr,
               Except.ok 0)

/-! ### Service instantiations used by the theorems -/
/-- A stateless adapter built from pure outcome functions: `F` gives
each `find_documents_by_url` result, `D` each raw delete response. -/
def statelessService (F : String → String → Url → Except String (List String))
    (D : String → String → String → DeleteRaw) : Service Unit where
  find _ pid cid u := (F pid cid u, ())
  delete _ pid cid did := (D pid cid did, ())

/-- A document of the store-level service model: its collection, its
id, and the source URL it matches. -/
structure WDoc where
  cid : String
  did : String
  url : Url
deriving DecidableEq, Repr

/-- A store-level model of the remote service, used for the
counted-at-most-once invariant: `find` returns the ids of the stored
documents of the collection whose URL matches exactly; `delete`
removes the document and reports status `"deleted"` when it is
present, and raises (the document is already gone) otherwise. -/
def storeService : Service (List WDoc) where
  find s _ cid u :=
    (Except.ok ((s.filter (fun d => d.cid = cid && d.url = u)).map WDoc.did), s)
  delete s _ cid did :=
    if s.any (fun d => d.cid = cid && d.did = did) then
      (DeleteRaw.resp "deleted", s.filter (fun d => !(d.cid = cid && d.did = did)))
    else
      (DeleteRaw.raises "Document not found", s)

/-! ### Pagination (`find_documents_by_url`) -/
/-- The document ids a single result page contributes (source lines
94-97). -/
def pageIds (page : List QueryDoc) : List String :=
  page.filterMap docIdOf

/-! ### Stateless runs of the orchestrator

For the claims about `main`'s bookkeeping the adapter is instantiated
with pure outcome functions: `F` gives the ids each
`find_documents_by_url` call returns, `D` the raw response of each
`delete_document` call. -/
/-- A service whose `find` always succeeds with ids `F` and whose raw
delete response is `D`. -/
def okFindService (F : String → String → Url → List String)
    (D : String → String → String → DeleteRaw) : Service Unit :=
  statelessService (fun pid cid u => Except.ok (F pid cid u)) D

/-- The `delete_document` result determined by a raw response. -/
def deleteResult (D : String → String → String → DeleteRaw)
    (pid cid did : String) : Except String Bool :=
  match D pid cid did with
  | DeleteRaw.resp status => Except.ok (status = "deleted")
  | DeleteRaw.raises m => Except.error m

/-- Does a raw delete response report success? -/
def isDeletedResp (r : DeleteRaw) : Bool :=
  r = DeleteRaw.resp "deleted"

/-- The error record one delete attempt contributes (source lines
159-168): none on success, an `"unexpected status"` record on a
non-`"deleted"` response, the exception's message on a raise. -/
def deleteRecord (D : String → String → String → DeleteRaw)
    (pid : String) (u : Url) (cid cname did : String) :
    Option (Url × String × String × String) :=
  match D pid cid did with
  | DeleteRaw.resp status =>
    if status = "deleted" then none else some (u, did, cname, "unexpected status")
  | DeleteRaw.raises m => some (u, did, cname, m)

/-- The events one (URL, collection) pair contributes in a stateless
run whose finds all succeed: the find call, then one delete call per
returned id. -/
def colEvents (F : String → String → Url → List String)
    (D : String → String → String → DeleteRaw) (pid : String) (u : Url)
    (c : String × String) : List Event :=
  Event.findCall pid c.1 u (Except.ok (F pid c.1 u)) ::
    (F pid c.1 u).map (fun did => Event.deleteCall u pid c.1 did (deleteResult D pid c.1 did))

/-- How many deletions one (URL, collection) pair adds to the deleted
counter. -/
def colDeletedCount (F : String → String → Url → List String)
    (D : String → String → String → DeleteRaw) (pid : String) (u : Url)
    (c : String × String) : Nat :=
  (F pid c.1 u).countP (fun did => isDeletedResp (D pid c.1 did))

/-- The error records one (URL, collection) pair appends. -/
def colErrors (F : String → String → Url → List String)
    (D : String → String → String → DeleteRaw) (pid : String) (u : Url)
    (c : String × String) : List (Url × String × String × String) :=
  (F pid c.1 u).filterMap (deleteRecord D pid u c.1 c.2)

/-- Did any collection return a match for `u`? (the `found_any` flag). -/
def urlFoundAny (F : String → String → Url → List String) (pid : String) (u : Url)
    (cols : List (String × String)) : Bool :=
  cols.any (fun c => !(F pid c.1 u).isEmpty)

/-- Search results used by the C2 witness. -/
def c2F : String → String → Url → List String := fun _ _ _ => ["d1", "d2"]

/-- Delete outcomes used by the C2 witness: `d1` raises, `d2`
succeeds. -/
def c2D : String → String → String → DeleteRaw :=
  fun _ _ did => if did = "d1" then DeleteRaw.raises "boom" else DeleteRaw.resp "deleted"

/-- Search results used by the C6 witness: one match for URL `m` in
collection `c1`, nothing anywhere else. -/
def c6F : String → String → Url → List String :=
  fun _ cid u => if cid = "c1" && u = ['m'] then ["d"] else []

/-- Delete outcomes used by the C6 witness: always succeeds. -/
def c6D : String → String → String → DeleteRaw :=
  fun _ _ _ => DeleteRaw.resp "deleted"

/-- Search results of the C7 counterexample: two documents. -/
def c7F : String → String → Url → List String := fun _ _ _ => ["d1", "d2"]

/-- Delete outcomes of the C7 counterexample: `d1` completes with a
status other than `"deleted"`, `d2` raises an exception whose message
is the string `"unexpected status"`. -/
def c7D : String → String → String → DeleteRaw :=
  fun _ _ did =>
    if did = "d1" then DeleteRaw.resp "failed" else DeleteRaw.raises "unexpected status"

/-- The environment of the program-level witnesses: all three required
variables set. -/
def fullEnv : String → Option String := fun k =>
  if k = "DISCOVERY_API_KEY" then some "key"
  else if k = "DISCOVERY_URL" then some "https://api.example" 
  else if k = "DISCOVERY_PROJECT_ID" then some "proj"
  else none

/-- A service whose single find result is one document and whose
delete always raises — the completed-with-failures scenario. -/
def failingDeleteService : Service Unit :=
  statelessService (fun _ _ _ => Except.ok ["d"]) (fun _ _ _ => DeleteRaw.raises "boom")

/-- The C4 witness world with no environment variables set. -/
def w4a : World Unit :=
  { getenv := fun _ => none
    url_file := "urls_to_delete.txt"
    file := some "u".toList
    collections := Except.ok [("c", "C")]
    svc := failingDeleteService
    s0 := () }

/-- The C4 witness world whose URL file does not exist. -/
def w4b : World Unit :=
  { w4a with getenv := fullEnv, file := none }

/-- The C4 witness world whose URL file holds only a comment. -/
def w4c : World Unit :=
  { w4a with getenv := fullEnv, file := some "# comment".toList }

/-- The C4 witness world whose project has no collections. -/
def w4d : World Unit :=
  { w4a with getenv := fullEnv, collections := Except.ok [] }

/-- The C4 witness world that completes the URL loop (its one delete
attempt fails and is recorded). -/
def w4e : World Unit :=
  { w4a with getenv := fullEnv }

/-- The C8 witness world: a file holding only a comment and a blank
line. -/
def w8 : World Unit :=
  { w4a with getenv := fullEnv, file := some "# nothing\n\n".toList }

/-! ### Search failures abort the run (C5) -/
/-- Is an event a `find_documents_by_url` call? -/
def isFindEvent : Event → Bool
  | Event.findCall _ _ _ _ => true
  | _ => false

/-- Find outcomes of the C5 witness: collection `c2` raises for URL
`b`, every other pair succeeds with no matches. -/
def c5G : String → String → Url → Except String (List String) :=
  fun _ cid u => if cid = "c2" && u = ['b'] then Except.error "boom" else Except.ok []

/-- Delete outcomes of the C5 witness (never reached). -/
def c5D : String → String → String → DeleteRaw := fun _ _ _ => DeleteRaw.resp "deleted"

/-! ### The deleted counter (C9) -/
/-- Is an event a delete call whose `delete_document` result was
`True` (raw status `"deleted"`)? -/
def isSuccessDelete : Event → Bool
  | Event.deleteCall _ _ _ _ (Except.ok true) => true
  | _ => false

/-- The `(collection_id, document_id)` key of a successful delete
call, if any. -/
def successKey : Event → Option (String × String)
  | Event.deleteCall _ _ cid did (Except.ok true) => some (cid, did)
  | _ => none

/-- The keys of the documents in a store. -/
def storeKeys (s : List WDoc) : List (String × String) :=
  s.map (fun d => (d.cid, d.did))

/-- The invariant tying a trace segment to the store it transformed:
the successful delete keys are distinct, each of them was present
before and absent after, and the store only shrinks. -/
def StoreInv (s : List WDoc) (tr : List Event) (s2 : List WDoc) : Prop :=
  (tr.filterMap successKey).Nodup ∧
  (∀ k ∈ tr.filterMap successKey, k ∈ storeKeys s ∧ k ∉ storeKeys s2) ∧
  (∀ k ∈ storeKeys s2, k ∈ storeKeys s)

/-! ### Theorems -/

example : find_documents_by_url (fun _ => [some "a", none, some ""]) 5 =
    some (["a"], [0]) := by decide

example : pySplitlines "a\n\nb".toList = [['a'], [], ['b']] := by decide

example : load_urls " x \n# c\n\n x".toList = [['x'], ['x']] := by decide

/-- Pagination loop characterisation: when the pages at offsets
`off, off + 100, …, off + 100 * n` are full except the last short one,
the loop returns the concatenated page ids and issues exactly those
query calls. -/
theorem findDocsLoop_pages (q : Nat → List QueryDoc) :
    ∀ (n fuel off : Nat),
      (∀ i, i < n → (q (off + 100 * i)).length = 100) →
      (q (off + 100 * n)).length < 100 →
      n < fuel →
      findDocsLoop q fuel off =
        some (((List.range (n + 1)).map (fun i => pageIds (q (off + 100 * i)))).flatten,
              (List.range (n + 1)).map (fun i => off + 100 * i)) := by
  intro n
  induction n with
  | zero =>
    intro fuel off _ hshort hfuel
    match fuel, hfuel with
    | fuel + 1, _ =>
      simp only [Nat.mul_zero, Nat.add_zero] at hshort
      by_cases hemp : (q off).isEmpty
      · have hq : q off = [] := List.isEmpty_iff.mp hemp
        simp [findDocsLoop, hemp, pageIds, hq, List.range_succ, List.range_zero]
      · have hlt : (q off).length < 100 := hshort
        simp [findDocsLoop, hemp, hlt, pageIds, List.range_succ, List.range_zero]
  | succ n ih =>
    intro fuel off hfull hshort hfuel
    match fuel, hfuel with
    | fuel + 1, hfuel =>
      have h0 : (q off).length = 100 := by
        have := hfull 0 (Nat.succ_pos n)
        simpa using this
      have hemp : (q off).isEmpty = false := by
        rcases h : q off with _ | _
        · rw [h] at h0; simp at h0
        · simp
      have hrec := ih fuel (off + 100)
        (fun i hi => by
          have := hfull (i + 1) (Nat.succ_lt_succ hi)
          have harith : off + 100 * (i + 1) = off + 100 + 100 * i := by ring
          rwa [harith] at this)
        (by
          have harith : off + 100 * (n + 1) = off + 100 + 100 * n := by ring
          rwa [harith] at hshort)
        (Nat.lt_of_succ_lt_succ hfuel)
      have hnotlt : ¬ (q off).length < 100 := by omega
      have hr : List.range (n + 1 + 1) = 0 :: (List.range (n + 1)).map Nat.succ :=
        List.range_succ_eq_map (n + 1)
      have hm1 : (List.range (n + 1)).map ((fun i => pageIds (q (off + 100 * i))) ∘ Nat.succ)
          = (List.range (n + 1)).map (fun i => pageIds (q (off + 100 + 100 * i))) := by
        apply List.map_congr_left
        intro i _
        have harith : off + 100 * Nat.succ i = off + 100 + 100 * i := by omega
        simp only [Function.comp_apply, harith]
      have hm2 : (List.range (n + 1)).map ((fun i => off + 100 * i) ∘ Nat.succ)
          = (List.range (n + 1)).map (fun i => off + 100 + 100 * i) := by
        apply List.map_congr_left
        intro i _
        simp only [Function.comp_apply]
        omega
      simp only [findDocsLoop, hemp, Bool.false_eq_true, if_false, hnotlt, hrec, hr,
        List.map_cons, List.map_map, hm1, hm2, Nat.mul_zero, Nat.add_zero]
      simp [pageIds]

/-- C1: for every query service whose pages at offsets 0, 100, …, 100·n
are full (exactly 100 results) except a final short one, the function
`find_documents_by_url` returns the concatenation of the document ids
of all pages in page order, and the query calls it issues are exactly
the offsets 0, 100, …, 100·n — none after the first page that is short
or empty.  With n = 0 this is the edge case: a first page shorter than
the page size (in particular a non-empty one) terminates after exactly
one call. -/
theorem claim_C1_pagination (q : Nat → List QueryDoc) (n fuel : Nat)
    (hfull : ∀ i, i < n → (q (100 * i)).length = 100)
    (hshort : (q (100 * n)).length < 100)
    (hfuel : n < fuel) :
    find_documents_by_url q fuel =
      some (((List.range (n + 1)).map (fun i => pageIds (q (100 * i)))).flatten,
            (List.range (n + 1)).map (fun i => 100 * i)) := by
  have h := findDocsLoop_pages q n fuel 0
    (by simpa using hfull) (by simpa using hshort) hfuel
  simpa [find_documents_by_url] using h

/-- Witness for C1: one non-empty page of two results (one of them
lacking an id), shorter than the page size — one single call at offset
0, ids of that page only. -/
theorem claim_C1_pagination_witness :
    find_documents_by_url (fun _ => [some "a", none]) 1 =
      some (((List.range 1).map
              (fun i => pageIds ((fun _ => ([some "a", none] : List QueryDoc)) (100 * i)))).flatten,
            (List.range 1).map (fun i => 100 * i)) :=
  claim_C1_pagination (fun _ => [some "a", none]) 0 1
    (fun i hi => absurd hi (Nat.not_lt_zero i)) (by decide) (by decide)

/-- Every terminating pagination run returns exactly the valid ids of
the pages it requested, in request order: a result lacking a
`document_id` (or carrying a falsy one) is dropped by `pageIds` and
appears nowhere in the output. -/
theorem findDocsLoop_ids (q : Nat → List QueryDoc) :
    ∀ (fuel off : Nat) (ids : List String) (offs : List Nat),
      findDocsLoop q fuel off = some (ids, offs) →
      ids = (offs.map (fun o => pageIds (q o))).flatten := by
  intro fuel
  induction fuel with
  | zero => intro off ids offs h; simp [findDocsLoop] at h
  | succ fuel ih =>
    intro off ids offs h
    by_cases hemp : (q off).isEmpty
    · have hq : q off = [] := List.isEmpty_iff.mp hemp
      simp [findDocsLoop, hemp] at h
      obtain ⟨h1, h2⟩ := h
      subst h1; subst h2
      simp [pageIds, hq]
    · by_cases hlt : (q off).length < 100
      · simp [findDocsLoop, hemp, hlt] at h
        obtain ⟨h1, h2⟩ := h
        subst h1; subst h2
        simp [pageIds]
      · rcases hrec : findDocsLoop q fuel (off + 100) with _ | ⟨ids2, offs2⟩
        · simp [findDocsLoop, hemp, hlt, hrec] at h
        · simp [findDocsLoop, hemp, hlt, hrec] at h
          obtain ⟨h1, h2⟩ := h
          subst h1; subst h2
          have := ih (off + 100) ids2 offs2 hrec
          simp [pageIds, this]

/-- The pages requested (and hence termination of the pagination loop)
depend only on the lengths of the result pages, not on their content:
a result lacking a `document_id` still counts toward the page-size
termination test. -/
theorem findDocsLoop_length_congr (q q2 : Nat → List QueryDoc)
    (hlen : ∀ o, (q2 o).length = (q o).length) :
    ∀ (fuel off : Nat),
      (findDocsLoop q2 fuel off).map Prod.snd = (findDocsLoop q fuel off).map Prod.snd := by
  intro fuel
  induction fuel with
  | zero => intro off; simp [findDocsLoop]
  | succ fuel ih =>
    intro off
    have hemp : (q2 off).isEmpty = (q off).isEmpty := by
      have h9 := hlen off
      rcases h1 : q2 off with _ | _ <;> rcases h2 : q off with _ | _ <;>
        rw [h1, h2] at h9 <;> simp_all
    by_cases he : (q off).isEmpty
    · simp [findDocsLoop, he, hemp]
    · have he2 : (q2 off).isEmpty = false := by rw [hemp]; simpa using he
      by_cases hlt : (q off).length < 100
      · have hlt2 : (q2 off).length < 100 := by rw [hlen]; exact hlt
        simp [findDocsLoop, he, he2, hlt, hlt2]
      · have hlt2 : ¬(q2 off).length < 100 := by rw [hlen]; exact hlt
        have hrec := ih (off + 100)
        rcases h1 : findDocsLoop q fuel (off + 100) with _ | ⟨ids1, offs1⟩ <;>
          rcases h2 : findDocsLoop q2 fuel (off + 100) with _ | ⟨ids2, offs2⟩ <;>
            rw [h1, h2] at hrec <;> simp at hrec <;>
              simp [findDocsLoop, he, he2, hlt, hlt2, h1, h2, hrec]

/-- C10: a query result lacking a `document_id` value (or carrying a
falsy empty one) is silently skipped.  For every terminating run of
`find_documents_by_url`: the returned ids are exactly the valid ids of
the requested pages (so a no-id result never appears in the output and
is never handed on to the deletion loop), every returned id is
non-empty, and any service returning pages of the same lengths — in
particular one in which the no-id results are replaced or removed from
the id projection — issues exactly the same query calls, since the
skipped result still counts toward the page-size termination test. -/
theorem claim_C10_missing_id_skipped (q q2 : Nat → List QueryDoc) (fuel : Nat)
    (ids : List String) (offs : List Nat)
    (h : find_documents_by_url q fuel = some (ids, offs))
    (hlen : ∀ o, (q2 o).length = (q o).length) :
    ids = (offs.map (fun o => pageIds (q o))).flatten ∧
    (∀ s ∈ ids, s ≠ "") ∧
    (find_documents_by_url q2 fuel).map Prod.snd = some offs := by
  have hids := findDocsLoop_ids q fuel 0 ids offs h
  refine ⟨hids, ?_, ?_⟩
  · intro s hs
    rw [hids] at hs
    rw [List.mem_flatten] at hs
    obtain ⟨pg, hpg, hspg⟩ := hs
    rw [List.mem_map] at hpg
    obtain ⟨o, _, rfl⟩ := hpg
    rw [pageIds, List.mem_filterMap] at hspg
    obtain ⟨d, _, hd⟩ := hspg
    rcases d with _ | s2
    · simp [docIdOf] at hd
    · by_cases h2 : s2 = "" <;> simp [docIdOf, h2] at hd
      exact hd ▸ h2
  · have := findDocsLoop_length_congr q q2 hlen fuel 0
    rw [find_documents_by_url] at h ⊢
    rw [this, h]
    rfl

/-- Witness for C10: a single short page whose middle result lacks a
`document_id`; the valid ids come back, the missing-id result is
skipped, and a same-length service is queried at the same offsets. -/
theorem claim_C10_missing_id_skipped_witness :
    (["a", "b"] : List String) =
        (([0].map (fun o => pageIds ((fun _ => [some "a", none, some "b"]) o))).flatten) ∧
      (∀ s ∈ (["a", "b"] : List String), s ≠ "") ∧
      (find_documents_by_url (fun _ => [some "x", some "y", none]) 3).map Prod.snd =
        some [0] :=
  claim_C10_missing_id_skipped (fun _ => [some "a", none, some "b"])
    (fun _ => [some "x", some "y", none]) 3 ["a", "b"] [0]
    (by decide) (fun _ => rfl)

/-! ### Input loading (`load_urls`) -/
/-- `pyStrip` in terms of `dropWhile` and `rdropWhile`. -/
theorem pyStrip_eq (l : List Char) :
    pyStrip l = List.rdropWhile pyIsSpace (l.dropWhile pyIsSpace) := rfl

/-- Stripping is idempotent: a stripped line is returned as is. -/
theorem pyStrip_idem (l : List Char) : pyStrip (pyStrip l) = pyStrip l := by
  rw [pyStrip_eq, pyStrip_eq]
  have hAself : (l.dropWhile pyIsSpace).dropWhile pyIsSpace = l.dropWhile pyIsSpace :=
    List.dropWhile_idempotent pyIsSpace l
  have h1 : (List.rdropWhile pyIsSpace (l.dropWhile pyIsSpace)).dropWhile pyIsSpace
      = List.rdropWhile pyIsSpace (l.dropWhile pyIsSpace) := by
    rcases hR : List.rdropWhile pyIsSpace (l.dropWhile pyIsSpace) with _ | ⟨c, R2⟩
    · simp
    · obtain ⟨t, ht⟩ := List.rdropWhile_prefix pyIsSpace (l.dropWhile pyIsSpace)
      rw [hR] at ht
      have hA : l.dropWhile pyIsSpace = c :: (R2 ++ t) := by
        rw [← ht]
        simp
      rw [hA, List.dropWhile_cons] at hAself
      cases hpc : pyIsSpace c with
      | true =>
        rw [hpc] at hAself
        simp only [if_pos] at hAself
        have hlen : (List.dropWhile pyIsSpace (R2 ++ t)).length ≤ (R2 ++ t).length :=
          (List.dropWhile_suffix pyIsSpace).length_le
        rw [hAself] at hlen
        simp at hlen
      | false =>
        rw [List.dropWhile_cons, hpc]
        simp
  rw [h1, List.rdropWhile_idempotent]

/-- The accumulating loop of `load_urls`, characterised as a
strip-then-filter of the line list. -/
theorem load_urls_foldl (lines : List (List Char)) (acc : List Url) :
    lines.foldl
        (fun urls line =>
          let stripped := pyStrip line
          if keepLine stripped then urls ++ [stripped] else urls)
        acc
      = acc ++ (lines.map pyStrip).filter keepLine := by
  induction lines generalizing acc with
  | nil => simp
  | cons hd tl ih =>
    simp only [List.foldl_cons, List.map_cons, List.filter_cons]
    by_cases h : keepLine (pyStrip hd)
    · simp only [h, if_true, ih, List.append_assoc, List.singleton_append]
    · simp only [h, if_false, ih, Bool.false_eq_true]

/-- C3: `load_urls` returns exactly the stripped lines that are
non-empty and do not start with `#`, in original file order with
duplicates preserved (`List.filter` keeps order and multiplicity), and
every returned entry is non-empty, does not start with `#`, and equals
its own stripped form; no blank or comment line appears. -/
theorem claim_C3_load_urls (content : List Char) :
    load_urls content = ((pySplitlines content).map pyStrip).filter keepLine ∧
    (∀ u ∈ load_urls content,
      u ≠ [] ∧ u.head? ≠ some '#' ∧ pyStrip u = u) := by
  have hmain : load_urls content = ((pySplitlines content).map pyStrip).filter keepLine := by
    rw [load_urls, load_urls_foldl]
    simp
  refine ⟨hmain, ?_⟩
  intro u hu
  rw [hmain, List.mem_filter] at hu
  obtain ⟨hmem, hkeep⟩ := hu
  rw [List.mem_map] at hmem
  obtain ⟨line, _, rfl⟩ := hmem
  rw [keepLine, Bool.and_eq_true] at hkeep
  obtain ⟨hne, hhash⟩ := hkeep
  refine ⟨?_, ?_, pyStrip_idem line⟩
  · intro hnil
    rw [hnil] at hne
    simp at hne
  · intro hh
    rw [hh] at hhash
    simp at hhash

/-- Witness for C3 on a concrete file: a padded URL line, a comment
line, a blank line and a plain line. -/
theorem claim_C3_load_urls_witness :
    load_urls " a \n# b\n\nc".toList
        = ((pySplitlines " a \n# b\n\nc".toList).map pyStrip).filter keepLine ∧
      (['a'] ≠ [] ∧ (['a'] : List Char).head? ≠ some '#' ∧ pyStrip ['a'] = ['a']) :=
  ⟨(claim_C3_load_urls " a \n# b\n\nc".toList).1,
   (claim_C3_load_urls " a \n# b\n\nc".toList).2 ['a'] (by decide)⟩

/-- `delete_document` over a stateless service evaluates to
`deleteResult`. -/
theorem delete_document_stateless (G : String → String → Url → Except String (List String))
    (D : String → String → String → DeleteRaw) (pid cid did : String) :
    delete_document (statelessService G D) () pid cid did =
      (deleteResult D pid cid did, ()) := by
  rcases hD : D pid cid did with status | m <;>
    simp [delete_document, statelessService, deleteResult, hD]

/-- The document loop over a stateless service: it always runs to the
end of the id list, emits one delete call per id, adds one to the
deleted counter per `"deleted"` response, leaves the not-found counter
alone, and appends exactly the records of `deleteRecord`. -/
theorem docsLoop_stateless (F : String → String → Url → List String)
    (D : String → String → String → DeleteRaw) (u : Url) (pid cid cname : String) :
    ∀ (ds : List String) (st : RunState),
      docsLoop (okFindService F D) u pid cid cname ds () st =
        (ds.map (fun did => Event.deleteCall u pid cid did (deleteResult D pid cid did)), (),
          { total_deleted := st.total_deleted + ds.countP (fun did => isDeletedResp (D pid cid did)),
            total_not_found := st.total_not_found,
            errors := st.errors ++ ds.filterMap (deleteRecord D pid u cid cname) }) := by
  intro ds
  induction ds with
  | nil => intro st; simp [docsLoop]
  | cons did rest ih =>
    intro st
    have hdd : delete_document (okFindService F D) () pid cid did =
        (deleteResult D pid cid did, ()) :=
      delete_document_stateless _ D pid cid did
    rcases hD : D pid cid did with status | m
    · by_cases hstat : status = "deleted"
      · subst hstat
        simp only [docsLoop, hdd, deleteResult, hD, ih]
        simp [deleteRecord, hD, isDeletedResp, List.countP_cons]
        omega
      · simp only [docsLoop, hdd, deleteResult, hD, ih]
        simp [deleteRecord, hD, hstat, isDeletedResp, List.countP_cons]
    · simp only [docsLoop, hdd, deleteResult, hD, ih]
      simp [deleteRecord, hD, isDeletedResp, List.countP_cons]

/-- The collection loop over a stateless all-ok-find service, fully
characterised. -/
theorem collectionsLoop_stateless (F : String → String → Url → List String)
    (D : String → String → String → DeleteRaw) (pid : String) (u : Url) :
    ∀ (cols : List (String × String)) (found : Bool) (st : RunState),
      collectionsLoop (okFindService F D) u pid cols () found st =
        ((cols.map (colEvents F D pid u)).flatten,
         Except.ok ((), found || cols.any (fun c => !(F pid c.1 u).isEmpty),
           { total_deleted := st.total_deleted + (cols.map (colDeletedCount F D pid u)).sum,
             total_not_found := st.total_not_found,
             errors := st.errors ++ (cols.map (colErrors F D pid u)).flatten })) := by
  intro cols
  induction cols with
  | nil => intro found st; simp [collectionsLoop]
  | cons c rest ih =>
    intro found st
    rcases c with ⟨cid, cname⟩
    have hfind : (okFindService F D).find () pid cid u = (Except.ok (F pid cid u), ()) := rfl
    by_cases hemp : (F pid cid u).isEmpty
    · have hnil : F pid cid u = [] := List.isEmpty_iff.mp hemp
      simp only [collectionsLoop, hfind, hemp, if_pos, ih]
      simp [colEvents, colDeletedCount, colErrors, hnil]
    · simp only [collectionsLoop, hfind, hemp, if_neg, docsLoop_stateless, ih]
      simp only [colEvents, colDeletedCount, colErrors, List.map_cons, List.flatten_cons,
        List.sum_cons, List.any_cons, hemp, Bool.not_false, Bool.true_or, Bool.or_true,
        Bool.false_eq_true, if_false, List.cons_append, List.append_assoc, Prod.mk.injEq,
        RunState.mk.injEq]
      and_intros <;> first
        | rfl
        | trivial
        | rw [Nat.add_assoc]

/-- The URL loop over a stateless all-ok-find service: it processes
every URL against every collection (no early exit), the trace is the
per-URL blocks in order, the deleted counter sums the per-pair
successes, the not-found counter counts the URLs with no match in any
collection, and the error list is the concatenation of the per-pair
records. -/
theorem urlsLoop_stateless (F : String → String → Url → List String)
    (D : String → String → String → DeleteRaw) (pid : String) :
    ∀ (urls : List Url) (cols : List (String × String)) (st : RunState),
      urlsLoop (okFindService F D) pid urls cols () st =
        ((urls.map (fun u => (cols.map (colEvents F D pid u)).flatten)).flatten,
         Except.ok ((),
           { total_deleted := st.total_deleted +
               (urls.map (fun u => (cols.map (colDeletedCount F D pid u)).sum)).sum,
             total_not_found := st.total_not_found +
               urls.countP (fun u => !urlFoundAny F pid u cols),
             errors := st.errors ++
               (urls.map (fun u => (cols.map (colErrors F D pid u)).flatten)).flatten })) := by
  intro urls
  induction urls with
  | nil => intro cols st; simp [urlsLoop]
  | cons u rest ih =>
    intro cols st
    simp only [urlsLoop, collectionsLoop_stateless, Bool.false_or]
    by_cases hf : urlFoundAny F pid u cols
    · have hf2 : (cols.any fun c => !(F pid c.1 u).isEmpty) = true := hf
      simp only [hf2, if_pos, ih, List.map_cons, List.flatten_cons, List.sum_cons,
        List.countP_cons, urlFoundAny, hf2, Bool.not_true, List.append_assoc,
        Except.ok.injEq, Prod.mk.injEq, RunState.mk.injEq]
      and_intros <;> first
        | rfl
        | trivial
        | omega
        | (simp <;> omega)
    · have hf2 : (cols.any fun c => !(F pid c.1 u).isEmpty) = false := by
        simpa [urlFoundAny] using hf
      simp only [hf2, Bool.false_eq_true, if_false, ih, List.map_cons, List.flatten_cons,
        List.sum_cons, List.countP_cons, urlFoundAny, hf2, Bool.not_false,
        List.append_assoc, Except.ok.injEq, Prod.mk.injEq, RunState.mk.injEq]
      and_intros <;> first
        | rfl
        | trivial
        | omega
        | (simp <;> omega)

/-- The complement of the `found_any` flag is "every collection
returned an empty match list". -/
theorem not_urlFoundAny (F : String → String → Url → List String) (pid : String) (u : Url) :
    ∀ cols : List (String × String),
      (!urlFoundAny F pid u cols) = cols.all (fun c => (F pid c.1 u).isEmpty) := by
  intro cols
  induction cols with
  | nil => rfl
  | cons c rest ih =>
    simp only [urlFoundAny, List.any_cons, List.all_cons, Bool.not_or, Bool.not_not] at ih ⊢
    rw [ih]

/-- C2: a delete call that raises never aborts the run.  For every
stateless adapter whose searches succeed, the URL loop always
completes with `Except.ok`; its error list is the concatenation, over
every URL, every collection and every returned document id in
iteration order, of the per-call records, and its deleted and
not-found counters likewise cover the whole nested iteration — so the
documents, collections and URLs after a raising call are all still
processed.  Each call whose raw outcome is `raises m` contributes
exactly the one record `(url, doc_id, collection_name, m)`
(`deleteRecord`), which therefore appears in the final error list. -/
theorem claim_C2_delete_raise_isolated (F : String → String → Url → List String)
    (D : String → String → String → DeleteRaw) (pid : String)
    (urls : List Url) (cols : List (String × String)) (u : Url)
    (c : String × String) (did m : String)
    (hu : u ∈ urls) (hc : c ∈ cols) (hd : did ∈ F pid c.1 u)
    (hraise : D pid c.1 did = DeleteRaw.raises m) :
    (∃ st : RunState,
      (urlsLoop (okFindService F D) pid urls cols () initState).2 = Except.ok ((), st) ∧
      st.errors = (urls.map (fun u2 => (cols.map (colErrors F D pid u2)).flatten)).flatten ∧
      st.total_deleted = (urls.map (fun u2 => (cols.map (colDeletedCount F D pid u2)).sum)).sum ∧
      st.total_not_found = urls.countP (fun u2 => !urlFoundAny F pid u2 cols) ∧
      (u, did, c.2, m) ∈ st.errors) ∧
    deleteRecord D pid u c.1 c.2 did = some (u, did, c.2, m) := by
  have hrec : deleteRecord D pid u c.1 c.2 did = some (u, did, c.2, m) := by
    simp [deleteRecord, hraise]
  refine ⟨?_, hrec⟩
  rw [urlsLoop_stateless]
  refine ⟨_, rfl, by simp [initState], by simp [initState], by simp [initState], ?_⟩
  simp only [initState, List.nil_append]
  rw [List.mem_flatten]
  refine ⟨(cols.map (colErrors F D pid u)).flatten, List.mem_map_of_mem _ hu, ?_⟩
  rw [List.mem_flatten]
  refine ⟨colErrors F D pid u c, List.mem_map_of_mem _ hc, ?_⟩
  rw [colErrors, List.mem_filterMap]
  exact ⟨did, hd, hrec⟩

/-- Witness for C2: two URLs over two collections; the raising call on
`d1` is recorded once and everything else still runs. -/
theorem claim_C2_delete_raise_isolated_witness :
    (∃ st : RunState,
      (urlsLoop (okFindService c2F c2D) "p" [['u'], ['v']]
          [("c1", "A"), ("c2", "B")] () initState).2 = Except.ok ((), st) ∧
      st.errors = ([['u'], ['v']].map
          (fun u2 => (([("c1", "A"), ("c2", "B")].map (colErrors c2F c2D "p" u2))).flatten)).flatten ∧
      st.total_deleted = ([['u'], ['v']].map
          (fun u2 => (([("c1", "A"), ("c2", "B")].map (colDeletedCount c2F c2D "p" u2))).sum)).sum ∧
      st.total_not_found = [['u'], ['v']].countP
          (fun u2 => !urlFoundAny c2F "p" u2 [("c1", "A"), ("c2", "B")]) ∧
      (['u'], "d1", "A", "boom") ∈ st.errors) ∧
    deleteRecord c2D "p" ['u'] "c1" "A" "d1" = some (['u'], "d1", "A", "boom") :=
  claim_C2_delete_raise_isolated c2F c2D "p" [['u'], ['v']] [("c1", "A"), ("c2", "B")]
    ['u'] ("c1", "A") "d1" "boom" (by decide) (by decide) (by decide) (by decide)

/-- C6: the not-found counter.  For every stateless adapter whose
searches succeed, the run completes and its final not-found counter
counts exactly the URLs (once per occurrence in the loaded list) for
which every collection returned an empty match list; a URL with a
match in some collection is never counted.  Moreover an all-empty URL
contributes nothing to the deleted counter and no delete call is ever
made while processing it. -/
theorem claim_C6_not_found_counter (F : String → String → Url → List String)
    (D : String → String → String → DeleteRaw) (pid : String)
    (urls : List Url) (cols : List (String × String)) :
    (∃ st : RunState,
      (urlsLoop (okFindService F D) pid urls cols () initState).2 = Except.ok ((), st) ∧
      st.total_not_found =
        urls.countP (fun u => cols.all (fun c => (F pid c.1 u).isEmpty)) ∧
      st.total_deleted =
        (urls.map (fun u => (cols.map (colDeletedCount F D pid u)).sum)).sum) ∧
    (∀ u : Url, (∀ c ∈ cols, F pid c.1 u = []) →
      (cols.map (colDeletedCount F D pid u)).sum = 0 ∧
      (∀ pid2 cid did r,
        Event.deleteCall u pid2 cid did r ∉
          (urlsLoop (okFindService F D) pid urls cols () initState).1)) := by
  constructor
  · rw [urlsLoop_stateless]
    refine ⟨_, rfl, ?_, by simp [initState]⟩
    simp only [initState, Nat.zero_add]
    apply List.countP_congr
    intro u _
    rw [← not_urlFoundAny]
  · intro u hempty
    have hzero : ∀ c ∈ cols, colDeletedCount F D pid u c = 0 := by
      intro c hc
      simp [colDeletedCount, hempty c hc]
    constructor
    · rw [List.sum_eq_zero]
      intro x hx
      rw [List.mem_map] at hx
      obtain ⟨c, hc, rfl⟩ := hx
      exact hzero c hc
    · intro pid2 cid did r hmem
      rw [urlsLoop_stateless] at hmem
      simp only at hmem
      rw [List.mem_flatten] at hmem
      obtain ⟨blk, hblk, hin⟩ := hmem
      rw [List.mem_map] at hblk
      obtain ⟨u2, _, rfl⟩ := hblk
      rw [List.mem_flatten] at hin
      obtain ⟨ce, hce, hin2⟩ := hin
      rw [List.mem_map] at hce
      obtain ⟨c, hc, rfl⟩ := hce
      rw [colEvents, List.mem_cons] at hin2
      rcases hin2 with h1 | h2
      · simp at h1
      · rw [List.mem_map] at h2
        obtain ⟨did2, hdid2, heq⟩ := h2
        have hu2 : u2 = u := by
          injection heq.symm with e1 e2 e3 e4 e5
          exact e1.symm
        rw [hu2, hempty c hc] at hdid2
        exact absurd hdid2 (List.not_mem_nil did2)

/-- Witness for C6: URL `m` matches once (one deletion, no not-found),
URL `n` matches nowhere (one not-found, no delete call). -/
theorem claim_C6_not_found_counter_witness :
    (∃ st : RunState,
      (urlsLoop (okFindService c6F c6D) "p" [['m'], ['n']]
          [("c1", "A"), ("c2", "B")] () initState).2 = Except.ok ((), st) ∧
      st.total_not_found = [['m'], ['n']].countP
          (fun u => [("c1", "A"), ("c2", "B")].all (fun c => (c6F "p" c.1 u).isEmpty)) ∧
      st.total_deleted = ([['m'], ['n']].map
          (fun u => (([("c1", "A"), ("c2", "B")].map (colDeletedCount c6F c6D "p" u))).sum)).sum) ∧
    (([("c1", "A"), ("c2", "B")].map (colDeletedCount c6F c6D "p" ['n'])).sum = 0 ∧
      (∀ pid2 cid did r,
        Event.deleteCall ['n'] pid2 cid did r ∉
          (urlsLoop (okFindService c6F c6D) "p" [['m'], ['n']]
            [("c1", "A"), ("c2", "B")] () initState).1)) :=
  ⟨(claim_C6_not_found_counter c6F c6D "p" [['m'], ['n']] [("c1", "A"), ("c2", "B")]).1,
   (claim_C6_not_found_counter c6F c6D "p" [['m'], ['n']] [("c1", "A"), ("c2", "B")]).2
     ['n'] (by decide)⟩

/-- Counterexample to C7 as stated: the claim also asserts that the
`"unexpected status"` message is distinct from any raised-exception
error message, but the raised message is the exception's own text,
which can itself be `"unexpected status"`.  In this concrete run the
record of the non-`"deleted"` status on `d1` and the record of the
raised exception on `d2` carry the identical message, so the
distinctness part of the claim is false. -/
theorem claim_C7_counterexample :
    (urlsLoop (okFindService c7F c7D) "p" [['u']] [("c1", "C")] () initState).2 =
      Except.ok ((), { total_deleted := 0
                       total_not_found := 0
                       errors := [(['u'], "d1", "C", "unexpected status"),
                                  (['u'], "d2", "C", "unexpected status")] }) ∧
    c7D "p" "c1" "d2" = DeleteRaw.raises "unexpected status" := by
  constructor
  · rfl
  · rfl

/-- C7 (amended): a delete call that completes without raising and
whose returned status is not `"deleted"` is recorded as exactly one
error with the fixed message `"unexpected status"` (with the URL,
document id and collection name), and does not increment the deleted
counter; the message is a fixed constant rather than the exception
text, but it is not guaranteed distinct from a raised exception whose
own message happens to be `"unexpected status"`. -/
theorem claim_C7_unexpected_status (F : String → String → Url → List String)
    (D : String → String → String → DeleteRaw) (pid : String)
    (urls : List Url) (cols : List (String × String)) (u : Url)
    (c : String × String) (did status : String)
    (hu : u ∈ urls) (hc : c ∈ cols) (hd : did ∈ F pid c.1 u)
    (hresp : D pid c.1 did = DeleteRaw.resp status) (hne : status ≠ "deleted") :
    (∃ st : RunState,
      (urlsLoop (okFindService F D) pid urls cols () initState).2 = Except.ok ((), st) ∧
      st.errors = (urls.map (fun u2 => (cols.map (colErrors F D pid u2)).flatten)).flatten ∧
      st.total_deleted = (urls.map (fun u2 => (cols.map (colDeletedCount F D pid u2)).sum)).sum ∧
      (u, did, c.2, "unexpected status") ∈ st.errors) ∧
    deleteRecord D pid u c.1 c.2 did = some (u, did, c.2, "unexpected status") ∧
    isDeletedResp (D pid c.1 did) = false := by
  have hrec : deleteRecord D pid u c.1 c.2 did = some (u, did, c.2, "unexpected status") := by
    simp [deleteRecord, hresp, hne]
  refine ⟨?_, hrec, by simp [isDeletedResp, hresp, hne]⟩
  rw [urlsLoop_stateless]
  refine ⟨_, rfl, by simp [initState], by simp [initState], ?_⟩
  simp only [initState, List.nil_append]
  rw [List.mem_flatten]
  refine ⟨(cols.map (colErrors F D pid u)).flatten, List.mem_map_of_mem _ hu, ?_⟩
  rw [List.mem_flatten]
  refine ⟨colErrors F D pid u c, List.mem_map_of_mem _ hc, ?_⟩
  rw [colErrors, List.mem_filterMap]
  exact ⟨did, hd, hrec⟩

/-- Witness for the amended C7: the `d1` call of the counterexample
run, whose status `"failed"` is not `"deleted"`. -/
theorem claim_C7_unexpected_status_witness :
    (∃ st : RunState,
      (urlsLoop (okFindService c7F c7D) "p" [['u']] [("c1", "C")] () initState).2 =
        Except.ok ((), st) ∧
      st.errors = ([['u']].map
          (fun u2 => (([("c1", "C")].map (colErrors c7F c7D "p" u2))).flatten)).flatten ∧
      st.total_deleted = ([['u']].map
          (fun u2 => (([("c1", "C")].map (colDeletedCount c7F c7D "p" u2))).sum)).sum ∧
      (['u'], "d1", "C", "unexpected status") ∈ st.errors) ∧
    deleteRecord c7D "p" ['u'] "c1" "C" "d1" = some (['u'], "d1", "C", "unexpected status") ∧
    isDeletedResp (c7D "p" "c1" "d1") = false :=
  claim_C7_unexpected_status c7F c7D "p" [['u']] [("c1", "C")] ['u'] ("c1", "C") "d1" "failed"
    (by decide) (by decide) (by decide) (by decide) (by decide)

/-! ### Exit codes and the empty-input early exit -/
/-- A missing (or empty) required environment variable makes
`load_config` fail. -/
theorem load_config_eq_none (g : String → Option String)
    (h : ∃ k ∈ requiredKeys, envTruthy g k = false) : load_config g = none := by
  obtain ⟨k, hk, hfalse⟩ := h
  have hkf : k ∈ requiredKeys.filter (fun j => !envTruthy g j) :=
    List.mem_filter.mpr ⟨hk, by simp [hfalse]⟩
  have hne : ¬(requiredKeys.filter (fun j => !envTruthy g j)).isEmpty = true := by
    intro hemp
    rw [List.isEmpty_iff] at hemp
    rw [hemp] at hkf
    exact List.not_mem_nil k hkf
  rw [load_config]
  simp [hne]

/-- C4: the process exit codes.  Status 1 when a required
configuration value is missing or empty, when the URL file does not
exist, or when the project has no collections; status 0 when the URL
loop runs to completion (whatever errors it accumulated) and on an
empty URL list.  In the first three scenarios no remote call is
made. -/
theorem claim_C4_exit_codes {σ : Type} (w : World σ) :
    ((∃ k ∈ requiredKeys, envTruthy w.getenv k = false) →
      (program w).2 = ([], Except.ok 1)) ∧
    (∀ cfg, load_config w.getenv = some cfg → w.file = none →
      (program w).2 = ([], Except.ok 1)) ∧
    (∀ cfg content, load_config w.getenv = some cfg → w.file = some content →
      load_urls content = [] → (program w).2 = ([], Except.ok 0)) ∧
    (∀ cfg content, load_config w.getenv = some cfg → w.file = some content →
      load_urls content ≠ [] → w.collections = Except.ok [] →
      (program w).2 = ([Event.createClient, Event.listCollections cfg.project_id],
        Except.ok 1)) ∧
    (∀ cfg content cols tr s2 st2, load_config w.getenv = some cfg →
      w.file = some content → load_urls content ≠ [] →
      w.collections = Except.ok cols → cols ≠ [] →
      urlsLoop w.svc cfg.project_id (load_urls content) cols w.s0 initState =
        (tr, Except.ok (s2, st2)) →
      (program w).2.2 = Except.ok 0) := by
  refine ⟨?_, ?_, ?_, ?_, ?_⟩
  · intro h
    have hnone := load_config_eq_none w.getenv h
    simp [program, hnone]
  · intro cfg hcfg hfile
    simp [program, hcfg, hfile]
  · intro cfg content hcfg hfile hurls
    simp [program, hcfg, hfile, hurls]
  · intro cfg content hcfg hfile hurls hcols
    simp only [program, hcfg, hfile]
    rw [if_neg (by simpa using hurls)]
    simp [hcols]
  · intro cfg content cols tr s2 st2 hcfg hfile hurls hcols hcne hrun
    simp only [program, hcfg, hfile]
    rw [if_neg (by simpa using hurls)]
    simp only [hcols]
    rw [if_neg (by simpa using hcne)]
    simp [hrun]

/-- C8: an empty loaded URL list prints the nothing-to-do line and
exits 0 before the client is created: no console line but that one, no
`createClient`, no list-collections, query or delete call (the event
trace is empty). -/
theorem claim_C8_nothing_to_do {σ : Type} (w : World σ) (cfg : Config) (content : List Char)
    (hcfg : load_config w.getenv = some cfg) (hfile : w.file = some content)
    (hempty : load_urls content = []) :
    program w = (["No URLs found in input file. Nothing to do."], [], Except.ok 0) := by
  simp [program, hcfg, hfile, hempty]

/-- Witness for C4: five concrete worlds, one per scenario; the last
one completes its URL loop with a per-document delete failure and
still exits 0. -/
theorem claim_C4_exit_codes_witness :
    (program w4a).2 = ([], Except.ok 1) ∧
    (program w4b).2 = ([], Except.ok 1) ∧
    (program w4c).2 = ([], Except.ok 0) ∧
    (program w4d).2 = ([Event.createClient, Event.listCollections "proj"], Except.ok 1) ∧
    (program w4e).2.2 = Except.ok 0 :=
  ⟨(claim_C4_exit_codes w4a).1 ⟨"DISCOVERY_API_KEY", by decide, rfl⟩,
   (claim_C4_exit_codes w4b).2.1 _ rfl rfl,
   (claim_C4_exit_codes w4c).2.2.1 _ _ rfl rfl (by decide),
   (claim_C4_exit_codes w4d).2.2.2.1 _ _ rfl rfl (by decide) rfl,
   (claim_C4_exit_codes w4e).2.2.2.2 _ _ _ _ _ _ rfl rfl (by decide) rfl (by decide) rfl⟩

/-- Witness for C8: the nothing-to-do early exit on that world. -/
theorem claim_C8_nothing_to_do_witness :
    program w8 = (["No URLs found in input file. Nothing to do."], [], Except.ok 0) :=
  claim_C8_nothing_to_do _ _ _ rfl rfl (by decide)

/-- The document loop never issues a find call. -/
theorem docsLoop_no_findEvent {σ : Type} (svc : Service σ) (u : Url) (pid cid cname : String) :
    ∀ (ds : List String) (s : σ) (st : RunState),
      ((docsLoop svc u pid cid cname ds s st).1).countP isFindEvent = 0 := by
  intro ds
  induction ds with
  | nil => intro s st; simp [docsLoop]
  | cons did rest ih =>
    intro s st
    simp only [docsLoop]
    rcases delete_document svc s pid cid did with ⟨res, s2⟩
    rcases res with m | b
    · rcases h2 : docsLoop svc u pid cid cname rest s2
          { st with errors := st.errors ++ [(u, did, cname, m)] } with ⟨tr, s3, st3⟩
      have h3 := ih s2 { st with errors := st.errors ++ [(u, did, cname, m)] }
      rw [h2] at h3
      simp [h2, List.countP_cons, isFindEvent, h3]
    · cases b
      · rcases h2 : docsLoop svc u pid cid cname rest s2
            { st with errors := st.errors ++ [(u, did, cname, "unexpected status")] }
          with ⟨tr, s3, st3⟩
        have h3 := ih s2 { st with errors := st.errors ++ [(u, did, cname, "unexpected status")] }
        rw [h2] at h3
        simp [h2, List.countP_cons, isFindEvent, h3]
      · rcases h2 : docsLoop svc u pid cid cname rest s2
            { st with total_deleted := st.total_deleted + 1 } with ⟨tr, s3, st3⟩
        have h3 := ih s2 { st with total_deleted := st.total_deleted + 1 }
        rw [h2] at h3
        simp [h2, List.countP_cons, isFindEvent, h3]

/-- A collection sweep whose finds all succeed completes and issues
exactly one find call per collection. -/
theorem collectionsLoop_ok_count (G : String → String → Url → Except String (List String))
    (D : String → String → String → DeleteRaw) (pid : String) (u : Url) :
    ∀ (cols : List (String × String)) (found : Bool) (st : RunState),
      (∀ c ∈ cols, ∃ ids, G pid c.1 u = Except.ok ids) →
      ∃ tr found2 st2,
        collectionsLoop (statelessService G D) u pid cols () found st =
          (tr, Except.ok ((), found2, st2)) ∧
        tr.countP isFindEvent = cols.length := by
  intro cols
  induction cols with
  | nil => intro found st _; exact ⟨[], found, st, rfl, rfl⟩
  | cons c rest ih =>
    intro found st hok
    rcases c with ⟨cid, cname⟩
    obtain ⟨ids, hids⟩ := hok (cid, cname) (List.mem_cons_self _ _)
    have hfind : (statelessService G D).find () pid cid u = (Except.ok ids, ()) := by
      simp [statelessService, hids]
    by_cases hemp : ids.isEmpty
    · obtain ⟨tr, found2, st2, hrec, hcount⟩ :=
        ih found st (fun c2 hc2 => hok c2 (List.mem_cons_of_mem _ hc2))
      refine ⟨Event.findCall pid cid u (Except.ok ids) :: tr, found2, st2, ?_, ?_⟩
      · simp only [collectionsLoop, hfind, hemp, if_pos, hrec]
      · simp [List.countP_cons, isFindEvent, hcount]
    · rcases hdocs : docsLoop (statelessService G D) u pid cid cname ids () st
        with ⟨tr1, s3, st2⟩
      obtain ⟨tr2, found2, st3, hrec, hcount⟩ :=
        ih true st2 (fun c2 hc2 => hok c2 (List.mem_cons_of_mem _ hc2))
      have hs3 : s3 = () := rfl
      subst hs3
      refine ⟨Event.findCall pid cid u (Except.ok ids) :: (tr1 ++ tr2), found2, st3, ?_, ?_⟩
      · simp only [collectionsLoop, hfind, hemp, Bool.false_eq_true, if_false, hdocs, hrec]
      · have h1 : tr1.countP isFindEvent = 0 := by
          have := docsLoop_no_findEvent (statelessService G D) u pid cid cname ids () st
          rw [hdocs] at this
          exact this
        simp [List.countP_cons, List.countP_append, isFindEvent, h1, hcount]

/-- URLs whose collection sweeps all succeed are processed in full as a
prefix of the run: the loop then continues from some accumulated state,
having issued one find call per (URL, collection) pair. -/
theorem urlsLoop_ok_prefix (G : String → String → Url → Except String (List String))
    (D : String → String → String → DeleteRaw) (pid : String) :
    ∀ (us1 rest : List Url) (cols : List (String × String)) (st : RunState),
      (∀ u2 ∈ us1, ∀ c2 ∈ cols, ∃ ids, G pid c2.1 u2 = Except.ok ids) →
      ∃ tr1 st2,
        urlsLoop (statelessService G D) pid (us1 ++ rest) cols () st =
          (tr1 ++ (urlsLoop (statelessService G D) pid rest cols () st2).1,
           (urlsLoop (statelessService G D) pid rest cols () st2).2) ∧
        tr1.countP isFindEvent = us1.length * cols.length := by
  intro us1
  induction us1 with
  | nil => intro rest cols st _; exact ⟨[], st, by simp, by simp⟩
  | cons u2 us ih =>
    intro rest cols st hok
    obtain ⟨tr, found2, st2, hcl, hcount⟩ :=
      collectionsLoop_ok_count G D pid u2 cols false st
        (hok u2 (List.mem_cons_self _ _))
    obtain ⟨tr1, stMid, hrec, hcount1⟩ :=
      ih rest cols (if found2 then st2
          else { st2 with total_not_found := st2.total_not_found + 1 })
        (fun v hv => hok v (List.mem_cons_of_mem _ hv))
    refine ⟨tr ++ tr1, stMid, ?_, ?_⟩
    · simp only [List.cons_append, urlsLoop, hcl]
      rw [show List.append us rest = us ++ rest from rfl, hrec]
      simp [List.append_assoc]
    · rw [List.countP_append, hcount, hcount1, List.length_cons]
      ring

/-- A collection sweep that hits a raising find aborts at that call:
the trace ends with the failing find call, nothing after it runs, and
exactly one find call was issued per collection up to and including
the failing one. -/
theorem collectionsLoop_abort (G : String → String → Url → Except String (List String))
    (D : String → String → String → DeleteRaw) (pid : String) (u : Url)
    (c : String × String) (m : String) (cs2 : List (String × String)) :
    ∀ (cs1 : List (String × String)) (found : Bool) (st : RunState),
      (∀ c2 ∈ cs1, ∃ ids, G pid c2.1 u = Except.ok ids) →
      G pid c.1 u = Except.error m →
      ∃ tr0,
        collectionsLoop (statelessService G D) u pid (cs1 ++ c :: cs2) () found st =
          (tr0 ++ [Event.findCall pid c.1 u (Except.error m)], Except.error m) ∧
        (tr0 ++ [Event.findCall pid c.1 u (Except.error m)]).countP isFindEvent =
          cs1.length + 1 := by
  intro cs1
  induction cs1 with
  | nil =>
    intro found st _ herr
    rcases c with ⟨cid, cname⟩
    have hfind : (statelessService G D).find () pid cid u = (Except.error m, ()) := by
      simp [statelessService, herr]
    refine ⟨[], ?_, ?_⟩
    · simp only [List.nil_append, collectionsLoop, hfind]
    · simp [isFindEvent]
  | cons c2 rest ih =>
    intro found st hok herr
    rcases c2 with ⟨cid2, cname2⟩
    obtain ⟨ids, hids⟩ := hok (cid2, cname2) (List.mem_cons_self _ _)
    have hfind : (statelessService G D).find () pid cid2 u = (Except.ok ids, ()) := by
      simp [statelessService, hids]
    by_cases hemp : ids.isEmpty
    · obtain ⟨tr0, hres, hcount⟩ :=
        ih found st (fun x hx => hok x (List.mem_cons_of_mem _ hx)) herr
      refine ⟨Event.findCall pid cid2 u (Except.ok ids) :: tr0, ?_, ?_⟩
      · simp only [List.cons_append, collectionsLoop, hfind, hemp, if_pos]
        rw [show List.append rest (c :: cs2) = rest ++ c :: cs2 from rfl, hres]
      · simp only [List.cons_append, List.countP_cons, List.countP_append] at hcount ⊢
        (simp [isFindEvent] at hcount ⊢) <;> omega
    · rcases hdocs : docsLoop (statelessService G D) u pid cid2 cname2 ids () st
        with ⟨tr1, s3, st2⟩
      have hs3 : s3 = () := rfl
      subst hs3
      obtain ⟨tr0, hres, hcount⟩ :=
        ih true st2 (fun x hx => hok x (List.mem_cons_of_mem _ hx)) herr
      refine ⟨Event.findCall pid cid2 u (Except.ok ids) :: (tr1 ++ tr0), ?_, ?_⟩
      · simp only [List.cons_append, collectionsLoop, hfind, hemp, Bool.false_eq_true,
          if_false, hdocs]
        rw [show List.append rest (c :: cs2) = rest ++ c :: cs2 from rfl, hres]
        simp [List.append_assoc]
      · have h0 : tr1.countP isFindEvent = 0 := by
          have := docsLoop_no_findEvent (statelessService G D) u pid cid2 cname2 ids () st
          rw [hdocs] at this
          exact this
        simp only [List.cons_append, List.countP_cons, List.countP_append] at hcount ⊢
        (simp [isFindEvent, h0] at hcount ⊢) <;> omega

/-- C5: a raising `find_documents_by_url` call aborts the whole run.
If the finds of all earlier URLs and of the earlier collections of the
current URL succeed and the find for collection `c` of URL `u` raises
`m`, the URL loop returns the propagated exception (`Except.error m`,
so no final counters or error records exist at all — nothing is
accumulated for the failure), its trace ends with the failing find
call (nothing runs after it), and the number of find calls issued is
exactly one per fully processed (URL, collection) pair plus the
aborting one — no remaining collection, document or URL is touched. -/
theorem claim_C5_search_failure_aborts
    (G : String → String → Url → Except String (List String))
    (D : String → String → String → DeleteRaw) (pid : String)
    (us1 us2 : List Url) (u : Url) (cs1 cs2 : List (String × String))
    (c : String × String) (m : String)
    (h1 : ∀ u2 ∈ us1, ∀ c2 ∈ cs1 ++ c :: cs2, ∃ ids, G pid c2.1 u2 = Except.ok ids)
    (h2 : ∀ c2 ∈ cs1, ∃ ids, G pid c2.1 u = Except.ok ids)
    (h3 : G pid c.1 u = Except.error m) :
    ∃ tr0,
      urlsLoop (statelessService G D) pid (us1 ++ u :: us2) (cs1 ++ c :: cs2) () initState =
        (tr0 ++ [Event.findCall pid c.1 u (Except.error m)], Except.error m) ∧
      (tr0 ++ [Event.findCall pid c.1 u (Except.error m)]).countP isFindEvent =
        us1.length * (cs1 ++ c :: cs2).length + (cs1.length + 1) := by
  obtain ⟨tr1, st2, hpre, hc1⟩ :=
    urlsLoop_ok_prefix G D pid us1 (u :: us2) (cs1 ++ c :: cs2) initState h1
  obtain ⟨tr0, habort, hc2⟩ :=
    collectionsLoop_abort G D pid u c m cs2 cs1 false st2 h2 h3
  have hml : urlsLoop (statelessService G D) pid (u :: us2) (cs1 ++ c :: cs2) () st2 =
      (tr0 ++ [Event.findCall pid c.1 u (Except.error m)], Except.error m) := by
    simp only [urlsLoop, habort]
  refine ⟨tr1 ++ tr0, ?_, ?_⟩
  · rw [hpre, hml]
    simp [List.append_assoc]
  · rw [List.append_assoc, List.countP_append, hc1, hc2]

/-- Witness for C5: URL `a` is processed over all three collections,
URL `b` aborts at its second collection, URL `c` is never reached;
exactly 1·3 + 1 + 1 = 5 find calls happen. -/
theorem claim_C5_search_failure_aborts_witness :
    ∃ tr0,
      urlsLoop (statelessService c5G c5D) "p" ([['a']] ++ ['b'] :: [['c']])
          ([("c1", "A")] ++ ("c2", "B") :: [("c3", "C")]) () initState =
        (tr0 ++ [Event.findCall "p" "c2" ['b'] (Except.error "boom")], Except.error "boom") ∧
      (tr0 ++ [Event.findCall "p" "c2" ['b'] (Except.error "boom")]).countP isFindEvent =
        [['a']].length * ([("c1", "A")] ++ ("c2", "B") :: [("c3", "C")]).length +
          ([("c1", "A")].length + 1) :=
  claim_C5_search_failure_aborts c5G c5D "p" [['a']] [['c']] ['b']
    [("c1", "A")] [("c3", "C")] ("c2", "B") "boom"
    (by
      intro u2 hu2 c2 hc2
      fin_cases hu2 <;> fin_cases hc2 <;> exact ⟨[], rfl⟩)
    (by
      intro c2 hc2
      fin_cases hc2
      exact ⟨[], rfl⟩)
    rfl

/-- Through the document loop, the deleted counter grows by exactly
the number of successful delete calls in the emitted trace. -/
theorem docsLoop_deleted {σ : Type} (svc : Service σ) (u : Url) (pid cid cname : String) :
    ∀ (ds : List String) (s : σ) (st : RunState),
      ((docsLoop svc u pid cid cname ds s st).2.2).total_deleted =
        st.total_deleted + ((docsLoop svc u pid cid cname ds s st).1).countP isSuccessDelete := by
  intro ds
  induction ds with
  | nil => intro s st; simp [docsLoop]
  | cons did rest ih =>
    intro s st
    simp only [docsLoop]
    rcases delete_document svc s pid cid did with ⟨res, s2⟩
    rcases res with m | b
    · rcases h2 : docsLoop svc u pid cid cname rest s2
          { st with errors := st.errors ++ [(u, did, cname, m)] } with ⟨tr, s3, st3⟩
      have h3 := ih s2 { st with errors := st.errors ++ [(u, did, cname, m)] }
      rw [h2] at h3
      simp only [] at h3
      simp only [h2, List.countP_cons]
      simp [isSuccessDelete, h3]
    · cases b
      · rcases h2 : docsLoop svc u pid cid cname rest s2
            { st with errors := st.errors ++ [(u, did, cname, "unexpected status")] }
          with ⟨tr, s3, st3⟩
        have h3 := ih s2 { st with errors := st.errors ++ [(u, did, cname, "unexpected status")] }
        rw [h2] at h3
        simp only [] at h3
        simp only [h2, List.countP_cons]
        simp [isSuccessDelete, h3]
      · rcases h2 : docsLoop svc u pid cid cname rest s2
            { st with total_deleted := st.total_deleted + 1 } with ⟨tr, s3, st3⟩
        have h3 := ih s2 { st with total_deleted := st.total_deleted + 1 }
        rw [h2] at h3
        simp only [] at h3
        simp only [h2, List.countP_cons]
        simp [isSuccessDelete, h3]
        omega

/-- Through a completed collection sweep, the deleted counter grows by
exactly the number of successful delete calls in the trace. -/
theorem collectionsLoop_deleted {σ : Type} (svc : Service σ) (u : Url) (pid : String) :
    ∀ (cols : List (String × String)) (s : σ) (found : Bool) (st : RunState)
      (tr : List Event) (s2 : σ) (found2 : Bool) (st2 : RunState),
      collectionsLoop svc u pid cols s found st = (tr, Except.ok (s2, found2, st2)) →
      st2.total_deleted = st.total_deleted + tr.countP isSuccessDelete := by
  intro cols
  induction cols with
  | nil =>
    intro s found st tr s2 found2 st2 h
    simp only [collectionsLoop, Prod.mk.injEq] at h
    obtain ⟨h1, h2⟩ := h
    rw [Except.ok.injEq] at h2
    obtain ⟨rfl, rfl, rfl⟩ := h2
    simp [← h1]
  | cons c rest ih =>
    intro s found st tr s2 found2 st2 h
    rcases c with ⟨cid, cname⟩
    simp only [collectionsLoop] at h
    rcases hfind : svc.find s pid cid u with ⟨fres, sf⟩
    rw [hfind] at h
    rcases fres with m | doc_ids
    · simp at h
    · dsimp only at h
      by_cases hemp : doc_ids.isEmpty
      · rw [if_pos hemp] at h
        rcases hrec : collectionsLoop svc u pid rest sf found st with ⟨tr3, out3⟩
        rw [hrec] at h
        simp only [Prod.mk.injEq] at h
        obtain ⟨h1, h2⟩ := h
        subst h1
        subst h2
        have := ih sf found st tr3 s2 found2 st2 hrec
        simp [List.countP_cons, isSuccessDelete, this]
      · rw [if_neg hemp] at h
        rcases hdocs : docsLoop svc u pid cid cname doc_ids sf st with ⟨tr1, s3, st3⟩
        rw [hdocs] at h
        rcases hrec : collectionsLoop svc u pid rest s3 true st3 with ⟨tr2, out2⟩
        rw [hrec] at h
        simp only [Prod.mk.injEq] at h
        obtain ⟨h1, h2⟩ := h
        subst h1
        subst h2
        have hmid := docsLoop_deleted svc u pid cid cname doc_ids sf st
        rw [hdocs] at hmid
        have := ih s3 true st3 tr2 s2 found2 st2 hrec
        simp only [List.countP_cons, List.countP_append] at *
        simp [isSuccessDelete, this, hmid]
        omega

/-- Through a completed URL loop, the deleted counter equals its
initial value plus the number of successful delete calls in the whole
trace. -/
theorem urlsLoop_deleted {σ : Type} (svc : Service σ) (pid : String) :
    ∀ (urls : List Url) (cols : List (String × String)) (s : σ) (st : RunState)
      (tr : List Event) (s2 : σ) (st2 : RunState),
      urlsLoop svc pid urls cols s st = (tr, Except.ok (s2, st2)) →
      st2.total_deleted = st.total_deleted + tr.countP isSuccessDelete := by
  intro urls
  induction urls with
  | nil =>
    intro cols s st tr s2 st2 h
    simp only [urlsLoop, Prod.mk.injEq] at h
    obtain ⟨h1, h2⟩ := h
    rw [Except.ok.injEq] at h2
    obtain ⟨rfl, rfl⟩ := h2
    simp [← h1]
  | cons u rest ih =>
    intro cols s st tr s2 st2 h
    simp only [urlsLoop] at h
    rcases hcl : collectionsLoop svc u pid cols s false st with ⟨tr1, out1⟩
    rw [hcl] at h
    rcases out1 with m | ⟨sf, found, stMid⟩
    · simp at h
    · dsimp only at h
      rcases hrec : urlsLoop svc pid rest cols sf
          (if found then stMid
            else { stMid with total_not_found := stMid.total_not_found + 1 }) with ⟨tr2, out2⟩
      rw [hrec] at h
      simp only [Prod.mk.injEq] at h
      obtain ⟨h1, h2⟩ := h
      subst h1
      subst h2
      have hc := collectionsLoop_deleted svc u pid cols s false st tr1 sf found stMid hcl
      have hr := ih cols sf
        (if found then stMid
          else { stMid with total_not_found := stMid.total_not_found + 1 })
        tr2 s2 st2 hrec
      have hsame : (if found then stMid
          else { stMid with total_not_found := stMid.total_not_found + 1 }).total_deleted =
            stMid.total_deleted := by
        cases found <;> rfl
      rw [hsame] at hr
      rw [List.countP_append]
      omega

/-- The empty trace preserves the store. -/
theorem StoreInv.nil (s : List WDoc) : StoreInv s [] s :=
  ⟨List.nodup_nil, by simp, fun _ hk => hk⟩

/-- Invariant segments compose. -/
theorem StoreInv.comp {s1 : List WDoc} {tr1 : List Event} {s2 : List WDoc}
    {tr2 : List Event} {s3 : List WDoc}
    (h1 : StoreInv s1 tr1 s2) (h2 : StoreInv s2 tr2 s3) :
    StoreInv s1 (tr1 ++ tr2) s3 := by
  obtain ⟨hn1, hm1, hs1⟩ := h1
  obtain ⟨hn2, hm2, hs2⟩ := h2
  refine ⟨?_, ?_, fun k hk => hs1 k (hs2 k hk)⟩
  · rw [List.filterMap_append]
    exact List.Nodup.append hn1 hn2
      (fun k hk1 hk2 => (hm1 k hk1).2 (hm2 k hk2).1)
  · intro k hk
    rw [List.filterMap_append, List.mem_append] at hk
    rcases hk with hk | hk
    · exact ⟨(hm1 k hk).1, fun hmem => (hm1 k hk).2 (hs2 k hmem)⟩
    · exact ⟨hs1 k (hm2 k hk).1, (hm2 k hk).2⟩

/-- An event with no successful delete key extends any invariant
segment. -/
theorem StoreInv.consNone {s : List WDoc} {tr : List Event} {s2 : List WDoc}
    (e : Event) (he : successKey e = none) (h : StoreInv s tr s2) :
    StoreInv s (e :: tr) s2 := by
  obtain ⟨hn, hm, hs⟩ := h
  refine ⟨?_, ?_, hs⟩
  · rw [List.filterMap_cons, he]
    exact hn
  · intro k hk
    rw [List.filterMap_cons, he] at hk
    exact hm k hk

/-- A successful delete on a key present before and absent from the
segment's start store extends the invariant. -/
theorem StoreInv.consSuccess {s s2 s3 : List WDoc} {tr : List Event}
    {cid did : String} (e : Event) (he : successKey e = some (cid, did))
    (hmem : (cid, did) ∈ storeKeys s)
    (hnot : (cid, did) ∉ storeKeys s2)
    (hsub : ∀ k ∈ storeKeys s2, k ∈ storeKeys s)
    (h : StoreInv s2 tr s3) :
    StoreInv s (e :: tr) s3 := by
  obtain ⟨hn, hm, hs⟩ := h
  refine ⟨?_, ?_, fun k hk => hsub k (hs k hk)⟩
  · rw [List.filterMap_cons, he]
    exact List.Nodup.cons (fun hin => hnot (hm _ hin).1) hn
  · intro k hk
    rw [List.filterMap_cons, he, List.mem_cons] at hk
    rcases hk with rfl | hk
    · exact ⟨hmem, fun h3 => hnot (hs _ h3)⟩
    · exact ⟨hsub k (hm k hk).1, (hm k hk).2⟩

/-- A store key present means the deletion guard succeeds. -/
theorem storeKeys_any (s : List WDoc) (cid did : String) :
    (cid, did) ∈ storeKeys s ↔ s.any (fun d => d.cid = cid && d.did = did) = true := by
  rw [storeKeys, List.mem_map, List.any_eq_true]
  constructor
  · rintro ⟨d, hd, heq⟩
    refine ⟨d, hd, ?_⟩
    rw [Prod.mk.injEq] at heq
    simp [heq.1, heq.2]
  · rintro ⟨d, hd, hmatch⟩
    rw [Bool.and_eq_true, decide_eq_true_eq, decide_eq_true_eq] at hmatch
    exact ⟨d, hd, by rw [hmatch.1, hmatch.2]⟩

/-- Filtering only shrinks the key set. -/
theorem storeKeys_filter_subset (s : List WDoc) (p : WDoc → Bool) :
    ∀ k ∈ storeKeys (s.filter p), k ∈ storeKeys s := by
  intro k hk
  rw [storeKeys, List.mem_map] at hk ⊢
  obtain ⟨d, hd, rfl⟩ := hk
  exact ⟨d, List.mem_of_mem_filter hd, rfl⟩

/-- The removed key is gone from the filtered store. -/
theorem storeKeys_removed (s : List WDoc) (cid did : String) :
    (cid, did) ∉ storeKeys (s.filter (fun d => !(d.cid = cid && d.did = did))) := by
  intro h
  rw [storeKeys, List.mem_map] at h
  obtain ⟨d, hd, heq⟩ := h
  rw [List.mem_filter] at hd
  rw [Prod.mk.injEq] at heq
  have := hd.2
  rw [heq.1, heq.2] at this
  simp at this

/-- `delete_document` unfolded on a known raw service response. -/
theorem delete_document_eq {σ : Type} (svc : Service σ) (s : σ) (pid cid did : String)
    (r : DeleteRaw) (s2 : σ) (h : svc.delete s pid cid did = (r, s2)) :
    delete_document svc s pid cid did =
      ((match r with
        | DeleteRaw.resp status => Except.ok (status = "deleted")
        | DeleteRaw.raises m => Except.error m), s2) := by
  simp only [delete_document, h]
  rcases r with status | m <;> rfl

/-- The document loop over the store-level service maintains the
invariant: a delete succeeds only when the document is present, and
removes it. -/
theorem docsLoop_store (u : Url) (pid cid cname : String) :
    ∀ (ds : List String) (s : List WDoc) (st : RunState),
      StoreInv s ((docsLoop storeService u pid cid cname ds s st).1)
        ((docsLoop storeService u pid cid cname ds s st).2.1) := by
  intro ds
  induction ds with
  | nil => intro s st; exact StoreInv.nil s
  | cons did rest ih =>
    intro s st
    by_cases hpres : s.any (fun d => d.cid = cid && d.did = did)
    · have hdel : storeService.delete s pid cid did =
          (DeleteRaw.resp "deleted", s.filter (fun d => !(d.cid = cid && d.did = did))) := by
        show (if s.any (fun d => d.cid = cid && d.did = did) then
              (DeleteRaw.resp "deleted", s.filter (fun d => !(d.cid = cid && d.did = did)))
            else (DeleteRaw.raises "Document not found", s)) =
            (DeleteRaw.resp "deleted", s.filter (fun d => !(d.cid = cid && d.did = did)))
        rw [if_pos hpres]
      have hdd : delete_document storeService s pid cid did =
          (Except.ok true, s.filter (fun d => !(d.cid = cid && d.did = did))) := by
        rw [delete_document_eq storeService s pid cid did _ _ hdel]
        rfl
      simp only [docsLoop, hdd]
      rcases hrec : docsLoop storeService u pid cid cname rest
          (s.filter (fun d => !(d.cid = cid && d.did = did)))
          { st with total_deleted := st.total_deleted + 1 } with ⟨tr, s3, st3⟩
      simp only [hrec]
      have hinv := ih (s.filter (fun d => !(d.cid = cid && d.did = did)))
        { st with total_deleted := st.total_deleted + 1 }
      rw [hrec] at hinv
      exact StoreInv.consSuccess _ rfl ((storeKeys_any s cid did).mpr hpres)
        (storeKeys_removed s cid did) (storeKeys_filter_subset s _) hinv
    · have hdel : storeService.delete s pid cid did =
          (DeleteRaw.raises "Document not found", s) := by
        show (if s.any (fun d => d.cid = cid && d.did = did) then
              (DeleteRaw.resp "deleted", s.filter (fun d => !(d.cid = cid && d.did = did)))
            else (DeleteRaw.raises "Document not found", s)) =
            (DeleteRaw.raises "Document not found", s)
        rw [if_neg hpres]
      have hdd : delete_document storeService s pid cid did =
          (Except.error "Document not found", s) :=
        delete_document_eq storeService s pid cid did _ _ hdel
      simp only [docsLoop, hdd]
      rcases hrec : docsLoop storeService u pid cid cname rest s
          { st with errors := st.errors ++ [(u, did, cname, "Document not found")] }
        with ⟨tr, s3, st3⟩
      simp only [hrec]
      have hinv := ih s { st with errors := st.errors ++ [(u, did, cname, "Document not found")] }
      rw [hrec] at hinv
      exact StoreInv.consNone _ rfl hinv

/-- The collection sweep over the store-level service always completes
and maintains the invariant. -/
theorem collectionsLoop_store (u : Url) (pid : String) :
    ∀ (cols : List (String × String)) (s : List WDoc) (found : Bool) (st : RunState),
      ∃ tr found2 s2 st2,
        collectionsLoop storeService u pid cols s found st =
          (tr, Except.ok (s2, found2, st2)) ∧
        StoreInv s tr s2 := by
  intro cols
  induction cols with
  | nil => intro s found st; exact ⟨[], found, s, st, rfl, StoreInv.nil s⟩
  | cons c rest ih =>
    intro s found st
    rcases c with ⟨cid, cname⟩
    have hfind : storeService.find s pid cid u =
        (Except.ok ((s.filter (fun d => d.cid = cid && d.url = u)).map WDoc.did), s) := rfl
    by_cases hemp : ((s.filter (fun d => d.cid = cid && d.url = u)).map WDoc.did).isEmpty
    · obtain ⟨tr, found2, s2, st2, hrec, hinv⟩ := ih s found st
      refine ⟨Event.findCall pid cid u
          (Except.ok ((s.filter (fun d => d.cid = cid && d.url = u)).map WDoc.did)) :: tr,
        found2, s2, st2, ?_, StoreInv.consNone _ rfl hinv⟩
      simp only [collectionsLoop, hfind]
      rw [if_pos hemp, hrec]
    · rcases hdocs : docsLoop storeService u pid cid cname
          ((s.filter (fun d => d.cid = cid && d.url = u)).map WDoc.did) s st
        with ⟨tr1, s3, st3⟩
      have hinvd := docsLoop_store u pid cid cname
        ((s.filter (fun d => d.cid = cid && d.url = u)).map WDoc.did) s st
      rw [hdocs] at hinvd
      obtain ⟨tr2, found2, s4, st4, hrec, hinv2⟩ := ih s3 true st3
      refine ⟨Event.findCall pid cid u
          (Except.ok ((s.filter (fun d => d.cid = cid && d.url = u)).map WDoc.did)) ::
            (tr1 ++ tr2),
        found2, s4, st4, ?_, StoreInv.consNone _ rfl (StoreInv.comp hinvd hinv2)⟩
      simp only [collectionsLoop, hfind]
      rw [if_neg (by simpa using hemp), hdocs, hrec]

/-- The URL loop over the store-level service always completes and
maintains the invariant. -/
theorem urlsLoop_store (pid : String) :
    ∀ (urls : List Url) (cols : List (String × String)) (s : List WDoc) (st : RunState),
      ∃ tr s2 st2,
        urlsLoop storeService pid urls cols s st = (tr, Except.ok (s2, st2)) ∧
        StoreInv s tr s2 := by
  intro urls
  induction urls with
  | nil => intro cols s st; exact ⟨[], s, st, rfl, StoreInv.nil s⟩
  | cons u rest ih =>
    intro cols s st
    obtain ⟨tr1, found2, s2, st2, hcl, hinv1⟩ := collectionsLoop_store u pid cols s false st
    obtain ⟨tr2, s3, st3, hrec, hinv2⟩ := ih cols s2
      (if found2 then st2 else { st2 with total_not_found := st2.total_not_found + 1 })
    refine ⟨tr1 ++ tr2, s3, st3, ?_, StoreInv.comp hinv1 hinv2⟩
    simp only [urlsLoop, hcl]
    rw [hrec]

/-- C9: the deleted counter.  First conjunct, over any service and any
completed run: the final deleted counter equals its initial value plus
the number of delete calls in the trace that returned the `"deleted"`
status — each successful deletion counted exactly once.  Second
conjunct, over the store-level service model started from any document
store: the keys of the successful delete calls of a whole run are
pairwise distinct, so a document is counted at most once in the
deleted counter no matter how many (URL, collection) pairs matched it
— once deleted it is gone from the store and every later delete
attempt on it raises instead of reporting `"deleted"`. -/
theorem claim_C9_deleted_counter {σ : Type} (svc : Service σ) (pid : String)
    (urls : List Url) (cols : List (String × String)) (s : σ) (st : RunState)
    (tr : List Event) (s2 : σ) (st2 : RunState)
    (h : urlsLoop svc pid urls cols s st = (tr, Except.ok (s2, st2)))
    (docs : List WDoc) :
    st2.total_deleted = st.total_deleted + tr.countP isSuccessDelete ∧
    (((urlsLoop storeService pid urls cols docs initState).1).filterMap successKey).Nodup := by
  constructor
  · exact urlsLoop_deleted svc pid urls cols s st tr s2 st2 h
  · obtain ⟨tr2, s3, st3, hrun, hinv⟩ := urlsLoop_store pid urls cols docs initState
    rw [hrun]
    exact hinv.1

/-- Witness for C9: one URL, one collection, one matching document;
the deleted counter ends at 1 = 0 + 1, and the store-level run deletes
the document exactly once. -/
theorem claim_C9_deleted_counter_witness :
    (⟨1, 0, []⟩ : RunState).total_deleted = initState.total_deleted +
        ([Event.findCall "p" "c" ['u'] (Except.ok ["d"]),
          Event.deleteCall ['u'] "p" "c" "d" (Except.ok true)].countP isSuccessDelete) ∧
      (((urlsLoop storeService "p" [['u']] [("c", "C")]
          [⟨"c", "d", ['u']⟩] initState).1).filterMap successKey).Nodup :=
  claim_C9_deleted_counter
    (okFindService (fun _ _ _ => ["d"]) (fun _ _ _ => DeleteRaw.resp "deleted"))
    "p" [['u']] [("c", "C")] () initState
    [Event.findCall "p" "c" ['u'] (Except.ok ["d"]),
     Event.deleteCall ['u'] "p" "c" "d" (Except.ok true)] () ⟨1, 0, []⟩
    (by decide) [⟨"c", "d", ['u']⟩]
